import Mathlib

/-!
Verification of the maze geometry classification and character-collision
subsystem of the Maze repository (src/trabFinal/lighting/include/Maze.h,
src/unnamed/part_008, src/main.cpp, src/unnamed/part_006).

The C++ code works on IEEE floats; we model float arithmetic by exact
rational arithmetic.  The one operation that has no rational counterpart is
glm::normalize (it divides by a square root).  The source only ever uses a
triangle's stored normal by comparing normal.y against a positive constant
threshold (0.7 for the floor/wall classification, 0.5 for the walkable-slope
test), so we store the UNNORMALIZED normal direction (the raw cross product,
or the exact literal (0,1,0) the source assigns to the safety floor, which is
its own normalization) and perform every threshold comparison in the
algebraically equivalent squared form:
  for a nonzero vector n and c > 0,
    normalize(n).y <  c  iff  n.y < 0 or (0 <= n.y and n.y^2 <  c^2 * |n|^2)
    normalize(n).y >  c  iff  0 < n.y and c^2 * |n|^2 < n.y^2.
For n = 0 the source's normalize yields NaN and every float comparison with
NaN is false; both squared forms above also yield false at n = 0, matching
the source's behavior on degenerate triangles exactly.
-/

namespace MazeSpec

/-- glm::vec2 (used for the 2D barycentric helper). -/
structure V2 where
  x : ℚ
  y : ℚ
  deriving DecidableEq

/-- glm::vec3. -/
structure V3 where
  x : ℚ
  y : ℚ
  z : ℚ
  deriving DecidableEq

instance : Sub V2 := ⟨fun a b => ⟨a.x - b.x, a.y - b.y⟩⟩
instance : Add V3 := ⟨fun a b => ⟨a.x + b.x, a.y + b.y, a.z + b.z⟩⟩
instance : Sub V3 := ⟨fun a b => ⟨a.x - b.x, a.y - b.y, a.z - b.z⟩⟩

/-- Scalar multiple of a glm::vec3. -/
def scale (q : ℚ) (v : V3) : V3 := ⟨q * v.x, q * v.y, q * v.z⟩

/-- glm::dot on vec2. -/
def dot2 (a b : V2) : ℚ := a.x * b.x + a.y * b.y

/-- glm::dot on vec3. -/
def dot3 (a b : V3) : ℚ := a.x * b.x + a.y * b.y + a.z * b.z

/-- glm::cross. -/
def cross3 (a b : V3) : V3 :=
  ⟨a.y * b.z - a.z * b.y, a.z * b.x - a.x * b.z, a.x * b.y - a.y * b.x⟩

/-- Squared euclidean norm of a vec3. -/
def normSq3 (a : V3) : ℚ := dot3 a a

/-- Squared horizontal (x,z) distance between two vec3, i.e. the square of
`glm::distance(glm::vec2(p.x,p.z), glm::vec2(e.x,e.z))`. -/
def distSq2 (p e : V3) : ℚ := (p.x - e.x) ^ 2 + (p.z - e.z) ^ 2

/-- FLT_MAX, the initial `bestY = -std::numeric_limits<float>::max()` of
`getFloorHeight` is `-fltMax` in this model. -/
def fltMax : ℚ := (2 ^ 24 - 1) * 2 ^ 104

/-- The test `normalize(n).y < c` for a threshold c > 0, in squared form (false when
n = 0, matching the NaN comparison in the source).  Used for the
`tri.normal.y < MAX_WALKABLE_SLOPE` skip test of `getFloorHeight`. -/
def slopeTooSteep (n : V3) (c : ℚ) : Bool :=
  decide (n.y < 0 ∨ (0 ≤ n.y ∧ n.y ^ 2 < c ^ 2 * normSq3 n))

/-- The test `normalize(n).y > c` for a threshold c > 0, in squared form (false when
n = 0, matching the NaN comparison in the source).  Used for the
`tri.normal.y > 0.7f` floor/wall classification of `loadModel`. -/
def isFloorNormal (n : V3) (c : ℚ) : Bool :=
  decide (0 < n.y ∧ c ^ 2 * normSq3 n < n.y ^ 2)

/-- Maze::Triangle.  `normal` stores the unnormalized normal direction (see
the file comment); `centroid` is the arithmetic mean of the vertices. -/
structure Triangle where
  v0 : V3
  v1 : V3
  v2 : V3
  normal : V3
  centroid : V3
  deriving DecidableEq

/-- Construction of a Triangle in the face loop of `Maze::loadModel`
(Maze.h lines 78-99 / part_008 lines 82-122): the normal direction is the
cross product of the two edge vectors (the source normalizes it; we keep it
unnormalized, see the file comment), the centroid is `(v0+v1+v2)/3`. -/
def mkTriangle (v0 v1 v2 : V3) : Triangle :=
  { v0 := v0, v1 := v1, v2 := v2
    normal := cross3 (v1 - v0) (v2 - v0)
    centroid := scale (1 / 3) (v0 + v1 + v2) }

/-- The classification core of `Maze::loadModel` (Maze.h lines 68-144 /
part_008 lines 71-133): the OBJ parsing itself is done by the external
tiny_obj_loader collaborator, so the input here is the already-parsed
triangle soup, in file order.  Each triangle is pushed to `floorTriangles`
when `tri.normal.y > 0.7f`, else to `wallTriangles`. -/
def loadModel : List (V3 × V3 × V3) → List Triangle × List Triangle
  | [] => ([], [])
  | r :: rest =>
      let tri := mkTriangle r.1 r.2.1 r.2.2
      let rec' := loadModel rest
      if isFloorNormal tri.normal (7 / 10) then (tri :: rec'.1, rec'.2)
      else (rec'.1, tri :: rec'.2)

/-- The barycentric denominator `d00 * d11 - d01 * d01` of
`Maze::barycentric` for the projected triangle (a, b, c). -/
def baryDenom (a b c : V2) : ℚ :=
  dot2 (b - a) (b - a) * dot2 (c - a) (c - a) - dot2 (b - a) (c - a) * dot2 (b - a) (c - a)

/-- Barycentric coordinates (u, v, w). -/
structure Bary where
  u : ℚ
  v : ℚ
  w : ℚ
  deriving DecidableEq

/-- Model of `Maze::barycentric` (Maze.h lines 370-382 / part_008 lines 371-383): 2D
barycentric coordinates of p with respect to triangle (a, b, c); when the
denominator's magnitude is below 1e-6 the division is not executed and the
invalid coordinates (-1, -1, -1) are returned. -/
def barycentric (p a b c : V2) : Bary :=
  let v0 := b - a
  let v1 := c - a
  let v2 := p - a
  let d00 := dot2 v0 v0
  let d01 := dot2 v0 v1
  let d11 := dot2 v1 v1
  let d20 := dot2 v2 v0
  let d21 := dot2 v2 v1
  let denom := d00 * d11 - d01 * d01
  if |denom| < 1 / 1000000 then ⟨-1, -1, -1⟩
  else
    let v := (d11 * d20 - d01 * d21) / denom
    let w := (d00 * d21 - d01 * d20) / denom
    ⟨1 - v - w, v, w⟩

/-- The barycentric coordinates `getFloorHeight` computes for a query
position and a floor triangle: the (x,z) projections of the query point and
the triangle's vertices are passed to `barycentric`. -/
def baryAt (pos : V3) (t : Triangle) : Bary :=
  barycentric ⟨pos.x, pos.z⟩ ⟨t.v0.x, t.v0.z⟩ ⟨t.v1.x, t.v1.z⟩ ⟨t.v2.x, t.v2.z⟩

/-- The interpolated height `u * tri.v0.y + v * tri.v1.y + w * tri.v2.y` of
`getFloorHeight`. -/
def interpHeight (pos : V3) (t : Triangle) : ℚ :=
  let b := baryAt pos t
  b.u * t.v0.y + b.v * t.v1.y + b.w * t.v2.y

/-- The containment test `u >= 0 && v >= 0 && w >= 0` of `getFloorHeight`. -/
def baryInside (pos : V3) (t : Triangle) : Bool :=
  let b := baryAt pos t
  decide (0 ≤ b.u ∧ 0 ≤ b.v ∧ 0 ≤ b.w)

/-- A triangle is considered as a height candidate by `getFloorHeight` iff it
passes the slope test (when `checkSlope` is on) and the barycentric
containment test. -/
def isCandidate (pos : V3) (checkSlope : Bool) (t : Triangle) : Bool :=
  !(checkSlope && slopeTooSteep t.normal (1 / 2)) && baryInside pos t

/-- One iteration of the `getFloorHeight` loop body (Maze.h lines 339-356 /
part_008 lines 330-353), acting on the accumulator (found, bestY). -/
def stepFH (pos : V3) (checkSlope : Bool) (acc : Bool × ℚ) (t : Triangle) : Bool × ℚ :=
  if checkSlope && slopeTooSteep t.normal (1 / 2) then acc
  else if baryInside pos t then
    (if acc.2 < interpHeight pos t then (true, interpHeight pos t) else acc)
  else acc

/-- The full `getFloorHeight` loop, producing the final (found, bestY) pair
from the initial `bestY = -FLT_MAX`, `found = false`. -/
def floorHeightRun (tris : List Triangle) (pos : V3) (checkSlope : Bool) : Bool × ℚ :=
  tris.foldl (stepFH pos checkSlope) (false, -fltMax)

/-- Model of `Maze::getFloorHeight` of src/trabFinal/lighting/include/Maze.h lines
334-360: the loop above followed by `if (!found) return -99999.0f; return
bestY;`. -/
def getFloorHeight (tris : List Triangle) (pos : V3) (checkSlope : Bool) : ℚ :=
  let r := floorHeightRun tris pos checkSlope
  if r.1 then r.2 else -99999

/-- Model of `Maze::getFloorHeight` of src/unnamed/part_008 lines 322-357: the loop
is textually identical to the Maze.h variant; the only difference is the
fallback `if (!found) return minBounds.y;`. -/
def getFloorHeight008 (tris : List Triangle) (minBoundsY : ℚ) (pos : V3) (checkSlope : Bool) : ℚ :=
  let r := floorHeightRun tris pos checkSlope
  if r.1 then r.2 else minBoundsY

/-- The two safety-floor triangles pushed by `Maze::addFloor` (Maze.h lines
147-179 / part_008 lines 136-162), in push order.  Both carry the exact
normal (0,1,0) assigned by the source. -/
def safetyTri1 (mn mx : V3) : Triangle :=
  { v0 := ⟨mn.x - 100, mn.y, mx.z + 100⟩
    v1 := ⟨mx.x + 100, mn.y, mx.z + 100⟩
    v2 := ⟨mx.x + 100, mn.y, mn.z - 100⟩
    normal := ⟨0, 1, 0⟩
    centroid := scale (1 / 3) (⟨mn.x - 100, mn.y, mx.z + 100⟩ + ⟨mx.x + 100, mn.y, mx.z + 100⟩ + ⟨mx.x + 100, mn.y, mn.z - 100⟩) }

def safetyTri2 (mn mx : V3) : Triangle :=
  { v0 := ⟨mn.x - 100, mn.y, mx.z + 100⟩
    v1 := ⟨mx.x + 100, mn.y, mn.z - 100⟩
    v2 := ⟨mn.x - 100, mn.y, mn.z - 100⟩
    normal := ⟨0, 1, 0⟩
    centroid := scale (1 / 3) (⟨mn.x - 100, mn.y, mx.z + 100⟩ + ⟨mx.x + 100, mn.y, mn.z - 100⟩ + ⟨mn.x - 100, mn.y, mn.z - 100⟩) }

/-- Model of `Maze::addFloor`: appends the two safety-floor triangles to the floor
set, unconditionally (no slope classification is involved).  `mn`/`mx` are
the `minBounds`/`maxBounds` computed by `calculateBounds`. -/
def addFloor (floors : List Triangle) (mn mx : V3) : List Triangle :=
  floors ++ [safetyTri1 mn mx, safetyTri2 mn mx]

/-- Model of `Maze::checkTriangleCollision` of src/trabFinal/lighting/include/Maze.h
lines 384-406 (the variant with the -0.01 epsilon tolerance).  The float
code computes `N = normalize(cross(v1-v0, v2-v0))`, `dist = dot(c-v0, N)`,
rejects when `|dist| > r`, projects `P = c - dist*N` and tests 3D
barycentric containment of P with a degeneracy guard `|D| < 1e-6`.
Rational rendering: with n the unnormalized cross product and nsq = |n|^2,
`|dist| > r` is `r < 0 or dist^2 > r^2` i.e. `r < 0 or dot(c-v0,n)^2 >
r^2*nsq` (for nsq > 0; for nsq = 0 every comparison with the NaN dist is
false so the code falls through to the D guard, and D = -nsq = 0 makes it
return false — the `p` chosen below for nsq = 0 is irrelevant), and
`dist*N = (dot(c-v0,n)/nsq) * n`. -/
def checkTriangleCollision (c : V3) (r : ℚ) (v0 v1 v2 : V3) : Bool :=
  let n := cross3 (v1 - v0) (v2 - v0)
  let nsq := normSq3 n
  if 0 < nsq ∧ (r < 0 ∨ r ^ 2 * nsq < dot3 (c - v0) n ^ 2) then false
  else
    let p := if nsq = 0 then c else c - scale (dot3 (c - v0) n / nsq) n
    let u := v1 - v0
    let v := v2 - v0
    let w := p - v0
    let uu := dot3 u u
    let uv := dot3 u v
    let vv := dot3 v v
    let wu := dot3 w u
    let wv := dot3 w v
    let D := uv * uv - uu * vv
    if |D| < 1 / 1000000 then false
    else
      let s := (uv * wv - vv * wu) / D
      let t := (uv * wu - uu * wv) / D
      let epsilon : ℚ := -1 / 100
      decide (epsilon ≤ s ∧ epsilon ≤ t ∧ s + t ≤ 1 - epsilon)

/-- Model of `Maze::checkWallCollision`: true iff some wall triangle passes the
sphere-vs-triangle test (early exit in the source; `List.any` here). -/
def checkWallCollision (walls : List Triangle) (position : V3) (radius : ℚ) : Bool :=
  walls.any (fun t => checkTriangleCollision position radius t.v0 t.v1 t.v2)

/-- The per-triangle plane-distance part of the sphere test, in squared
form: `|signed distance from c to the triangle's plane| <= r`. -/
def planeWithinRadius (c : V3) (r : ℚ) (v0 v1 v2 : V3) : Prop :=
  dot3 (c - v0) (cross3 (v1 - v0) (v2 - v0)) ^ 2 ≤ r ^ 2 * normSq3 (cross3 (v1 - v0) (v2 - v0))

/-- The per-triangle containment part of the sphere test: the triangle is
non-degenerate under the code's own 1e-6 guard (note `D = -|n|^2` by the
Lagrange identity) and the plane projection of c has barycentric (s, t)
within the epsilon-relaxed bounds the code uses. -/
def projWithinTriangle (c : V3) (v0 v1 v2 : V3) : Prop :=
  let n := cross3 (v1 - v0) (v2 - v0)
  let nsq := normSq3 n
  let p := c - scale (dot3 (c - v0) n / nsq) n
  let u := v1 - v0
  let v := v2 - v0
  let w := p - v0
  let uu := dot3 u u
  let uv := dot3 u v
  let vv := dot3 v v
  let wu := dot3 w u
  let wv := dot3 w v
  let D := uv * uv - uu * vv
  let s := (uv * wv - vv * wu) / D
  let t := (uv * wu - uu * wv) / D
  1 / 1000000 ≤ nsq ∧ -1 / 100 ≤ s ∧ -1 / 100 ≤ t ∧ s + t ≤ 1 - (-1 / 100 : ℚ)

/-- One physics substep of `processInput` with noclip off (src/main.cpp
lines 472-514).  `delta` is the displacement produced by this substep's
directional input (the WASD `camera.ProcessKeyboard` calls), `curFH` is the
cached `currentFloorHeight`.  The wall probe radius is the fixed 5.0 of the
call site. -/
def substep (walls floors : List Triangle) (pos : V3) (curFH : ℚ) (delta : V3) : V3 × ℚ :=
  let cand := pos + delta
  if checkWallCollision walls cand 5 then (pos, curFH)
  else
    let nfh := getFloorHeight floors cand true
    if nfh < -90000 then (pos, curFH)
    else if 15 < nfh - curFH then (⟨pos.x, cand.y, pos.z⟩, curFH)
    else (⟨cand.x, nfh + 50, cand.z⟩, nfh)

/-- The substep loop (`for (int i = 0; i < steps; i++)`, steps = 4) with a
constant per-substep input displacement. -/
def runSubsteps (walls floors : List Triangle) (delta : V3) : Nat → V3 × ℚ → V3 × ℚ
  | 0, s => s
  | n + 1, s => runSubsteps walls floors delta n (substep walls floors s.1 s.2 delta)

/-- The failsafe after the substep loop (src/main.cpp lines 519-523 /
part_006 lines 425-430): `if (camera.Position.y < -300.0f) { camera.Position
= maze.startPosition; camera.Position.y += 50.0f; }`. -/
def failsafeCheck (pos start : V3) : V3 :=
  if pos.y < -300 then ⟨start.x, start.y + 50, start.z⟩ else pos

/-- The victory check at the end of `processInput` (src/main.cpp lines
526-537, radius 50; src/unnamed/part_006 lines 433-444, radius 10): when the
flag is not yet set and the horizontal (x,z) distance to the exit is below
the radius, the flag is set.  `distance < radius` is rendered in squared
form (equivalent for radius >= 0; both call sites use positive literals). -/
def victoryUpdate (flag : Bool) (pos exitPos : V3) (radius : ℚ) : Bool :=
  if !flag && decide (distSq2 pos exitPos < radius ^ 2) then true else flag

/-! ### Componentwise evaluation lemmas for the vector operations -/

@[simp] lemma V2_sub_x (a b : V2) : (a - b).x = a.x - b.x := rfl

@[simp] lemma V2_sub_y (a b : V2) : (a - b).y = a.y - b.y := rfl

@[simp] lemma V3_add_x (a b : V3) : (a + b).x = a.x + b.x := rfl

@[simp] lemma V3_add_y (a b : V3) : (a + b).y = a.y + b.y := rfl

@[simp] lemma V3_add_z (a b : V3) : (a + b).z = a.z + b.z := rfl

@[simp] lemma V3_sub_x (a b : V3) : (a - b).x = a.x - b.x := rfl

@[simp] lemma V3_sub_y (a b : V3) : (a - b).y = a.y - b.y := rfl

@[simp] lemma V3_sub_z (a b : V3) : (a - b).z = a.z - b.z := rfl

@[simp] lemma scale_x (q : ℚ) (v : V3) : (scale q v).x = q * v.x := rfl

@[simp] lemma scale_y (q : ℚ) (v : V3) : (scale q v).y = q * v.y := rfl

@[simp] lemma scale_z (q : ℚ) (v : V3) : (scale q v).z = q * v.z := rfl

/-! ### Helper lemmas about the getFloorHeight loop -/

lemma stepFH_of_cand {pos : V3} {cs : Bool} {t : Triangle} (acc : Bool × ℚ)
    (h : isCandidate pos cs t = true) :
    stepFH pos cs acc t =
      if acc.2 < interpHeight pos t then (true, interpHeight pos t) else acc := by
  unfold isCandidate at h
  rw [Bool.and_eq_true, Bool.not_eq_true'] at h
  unfold stepFH
  rw [if_neg (by rw [h.1]; exact Bool.false_ne_true), if_pos h.2]

lemma stepFH_of_not_cand {pos : V3} {cs : Bool} {t : Triangle} (acc : Bool × ℚ)
    (h : isCandidate pos cs t = false) :
    stepFH pos cs acc t = acc := by
  unfold stepFH
  by_cases h1 : (cs && slopeTooSteep t.normal (1 / 2)) = true
  · rw [if_pos h1]
  · have h1f : (cs && slopeTooSteep t.normal (1 / 2)) = false := by
      cases hcs : (cs && slopeTooSteep t.normal (1 / 2))
      · rfl
      · exact absurd hcs h1
    have h2 : baryInside pos t = false := by
      unfold isCandidate at h
      rw [h1f] at h
      simpa using h
    rw [if_neg h1, if_neg (by rw [h2]; exact Bool.false_ne_true)]

/-- The complete invariant of the `getFloorHeight` accumulation loop:
starting from any accumulator, the final `bestY` dominates the starting one
and every candidate's interpolated height, equals the starting one or some
candidate's height, and `found` becomes true exactly when it already was or
some candidate strictly improves the running best. -/
lemma floorHeightLoop_spec (pos : V3) (cs : Bool) :
    ∀ (l : List Triangle) (acc : Bool × ℚ),
      acc.2 ≤ (l.foldl (stepFH pos cs) acc).2
      ∧ (∀ t ∈ l, isCandidate pos cs t = true →
          interpHeight pos t ≤ (l.foldl (stepFH pos cs) acc).2)
      ∧ ((l.foldl (stepFH pos cs) acc).2 = acc.2
          ∨ ∃ t ∈ l, isCandidate pos cs t = true
              ∧ (l.foldl (stepFH pos cs) acc).2 = interpHeight pos t)
      ∧ (acc.1 = true → (l.foldl (stepFH pos cs) acc).1 = true)
      ∧ ((∃ t ∈ l, isCandidate pos cs t = true ∧ acc.2 < interpHeight pos t) →
          (l.foldl (stepFH pos cs) acc).1 = true)
      ∧ ((l.foldl (stepFH pos cs) acc).1 = true →
          acc.1 = true ∨ ∃ t ∈ l, isCandidate pos cs t = true) := by
  intro l
  induction l with
  | nil =>
      intro acc
      refine ⟨le_refl _, ?_, Or.inl rfl, fun h => h, ?_, fun h => Or.inl h⟩
      · intro t ht; exact absurd ht (List.not_mem_nil t)
      · rintro ⟨t, ht, -⟩; exact absurd ht (List.not_mem_nil t)
  | cons hd tl ih =>
      intro acc
      rw [List.foldl_cons]
      by_cases hc : isCandidate pos cs hd = true
      · rw [stepFH_of_cand acc hc]
        by_cases himp : acc.2 < interpHeight pos hd
        · rw [if_pos himp]
          obtain ⟨i1, i2, i3, i4, i5, i6⟩ := ih (true, interpHeight pos hd)
          refine ⟨le_trans (le_of_lt himp) i1, ?_, ?_, fun _ => i4 rfl, fun _ => i4 rfl, ?_⟩
          · intro t ht hcand
            rcases List.mem_cons.mp ht with rfl | htl
            · exact i1
            · exact i2 t htl hcand
          · rcases i3 with h | ⟨t, ht, hcand, hval⟩
            · exact Or.inr ⟨hd, List.mem_cons_self hd tl, hc, h⟩
            · exact Or.inr ⟨t, List.mem_cons_of_mem hd ht, hcand, hval⟩
          · intro _
            exact Or.inr ⟨hd, List.mem_cons_self hd tl, hc⟩
        · rw [if_neg himp]
          push_neg at himp
          obtain ⟨i1, i2, i3, i4, i5, i6⟩ := ih acc
          refine ⟨i1, ?_, ?_, i4, ?_, ?_⟩
          · intro t ht hcand
            rcases List.mem_cons.mp ht with rfl | htl
            · exact le_trans himp i1
            · exact i2 t htl hcand
          · rcases i3 with h | ⟨t, ht, hcand, hval⟩
            · exact Or.inl h
            · exact Or.inr ⟨t, List.mem_cons_of_mem hd ht, hcand, hval⟩
          · rintro ⟨t, ht, hcand, hlt⟩
            rcases List.mem_cons.mp ht with rfl | htl
            · exact absurd hlt (not_lt.mpr himp)
            · exact i5 ⟨t, htl, hcand, hlt⟩
          · intro hfound
            rcases i6 hfound with h | ⟨t, ht, hcand⟩
            · exact Or.inl h
            · exact Or.inr ⟨t, List.mem_cons_of_mem hd ht, hcand⟩
      · have hcf : isCandidate pos cs hd = false := by
          cases hval : isCandidate pos cs hd
          · rfl
          · exact absurd hval hc
        rw [stepFH_of_not_cand acc hcf]
        obtain ⟨i1, i2, i3, i4, i5, i6⟩ := ih acc
        refine ⟨i1, ?_, ?_, i4, ?_, ?_⟩
        · intro t ht hcand
          rcases List.mem_cons.mp ht with rfl | htl
          · exact absurd hcand hc
          · exact i2 t htl hcand
        · rcases i3 with h | ⟨t, ht, hcand, hval⟩
          · exact Or.inl h
          · exact Or.inr ⟨t, List.mem_cons_of_mem hd ht, hcand, hval⟩
        · rintro ⟨t, ht, hcand, hlt⟩
          rcases List.mem_cons.mp ht with rfl | htl
          · exact absurd hcand hc
          · exact i5 ⟨t, htl, hcand, hlt⟩
        · intro hfound
          rcases i6 hfound with h | ⟨t, ht, hcand⟩
          · exact Or.inl h
          · exact Or.inr ⟨t, List.mem_cons_of_mem hd ht, hcand⟩

lemma floorHeightRun_found (tris : List Triangle) (pos : V3) (cs : Bool)
    (h : ∃ t ∈ tris, isCandidate pos cs t = true ∧ -fltMax < interpHeight pos t) :
    (floorHeightRun tris pos cs).1 = true :=
  (floorHeightLoop_spec pos cs tris (false, -fltMax)).2.2.2.2.1 h

lemma floorHeightRun_ge (tris : List Triangle) (pos : V3) (cs : Bool) :
    ∀ t ∈ tris, isCandidate pos cs t = true →
      interpHeight pos t ≤ (floorHeightRun tris pos cs).2 :=
  (floorHeightLoop_spec pos cs tris (false, -fltMax)).2.1

lemma floorHeightRun_mem (tris : List Triangle) (pos : V3) (cs : Bool) :
    (floorHeightRun tris pos cs).2 = -fltMax
      ∨ ∃ t ∈ tris, isCandidate pos cs t = true
          ∧ (floorHeightRun tris pos cs).2 = interpHeight pos t :=
  (floorHeightLoop_spec pos cs tris (false, -fltMax)).2.2.1

lemma floorHeightRun_not_found (tris : List Triangle) (pos : V3) (cs : Bool)
    (h : ∀ t ∈ tris, isCandidate pos cs t = false) :
    (floorHeightRun tris pos cs).1 = false := by
  cases hf : (floorHeightRun tris pos cs).1
  · rfl
  · rcases (floorHeightLoop_spec pos cs tris (false, -fltMax)).2.2.2.2.2 hf with hfalse | ⟨t, ht, hcand⟩
    · exact absurd hfalse (by simp)
    · rw [h t ht] at hcand
      exact absurd hcand (by simp)

/-! ### Helper lemmas about collision geometry -/

lemma normSq3_nonneg (v : V3) : 0 ≤ normSq3 v := by
  unfold normSq3 dot3
  nlinarith [mul_self_nonneg v.x, mul_self_nonneg v.y, mul_self_nonneg v.z]

/-- Lagrange identity: the `D = uv*uv - uu*vv` denominator of
`checkTriangleCollision` equals the negated squared norm of the cross
product of the two edges. -/
lemma lagrange_D (u v : V3) :
    dot3 u v * dot3 u v - dot3 u u * dot3 v v = -normSq3 (cross3 u v) := by
  simp only [dot3, cross3, normSq3]
  ring

lemma barycentric_of_denom_small (p a b c : V2) (h : |baryDenom a b c| < 1 / 1000000) :
    barycentric p a b c = ⟨-1, -1, -1⟩ := by
  unfold baryDenom at h
  simp only [barycentric]
  rw [if_pos h]

/-- The per-triangle sphere test, characterized: for a non-negative radius
it succeeds exactly when the center is within the radius of the triangle's
plane and its plane projection passes the epsilon-relaxed barycentric
containment test (which includes the 1e-6 non-degeneracy guard). -/
lemma checkTriangleCollision_iff (c : V3) (r : ℚ) (v0 v1 v2 : V3) (hr : 0 ≤ r) :
    checkTriangleCollision c r v0 v1 v2 = true ↔
      planeWithinRadius c r v0 v1 v2 ∧ projWithinTriangle c v0 v1 v2 := by
  have hD := lagrange_D (v1 - v0) (v2 - v0)
  have hnsq := normSq3_nonneg (cross3 (v1 - v0) (v2 - v0))
  simp only [checkTriangleCollision, planeWithinRadius, projWithinTriangle, hD,
    abs_neg, abs_of_nonneg hnsq, decide_eq_true_eq]
  by_cases hng : normSq3 (cross3 (v1 - v0) (v2 - v0)) < 1 / 1000000
  · constructor
    · intro hlhs
      exfalso
      by_cases h1 : 0 < normSq3 (cross3 (v1 - v0) (v2 - v0))
          ∧ (r < 0 ∨ r ^ 2 * normSq3 (cross3 (v1 - v0) (v2 - v0))
              < dot3 (c - v0) (cross3 (v1 - v0) (v2 - v0)) ^ 2)
      · rw [if_pos h1] at hlhs
        exact absurd hlhs (by simp)
      · rw [if_neg h1, if_pos hng] at hlhs
        exact absurd hlhs (by simp)
    · rintro ⟨-, hge, -⟩
      exact absurd hng (not_lt.mpr hge)
  · push_neg at hng
    have hpos : 0 < normSq3 (cross3 (v1 - v0) (v2 - v0)) :=
      lt_of_lt_of_le (by norm_num) hng
    have hne : ¬(normSq3 (cross3 (v1 - v0) (v2 - v0)) = 0) := ne_of_gt hpos
    rw [if_neg hne]
    by_cases hdist : r ^ 2 * normSq3 (cross3 (v1 - v0) (v2 - v0))
        < dot3 (c - v0) (cross3 (v1 - v0) (v2 - v0)) ^ 2
    · rw [if_pos ⟨hpos, Or.inr hdist⟩]
      constructor
      · intro hfalse
        exact absurd hfalse (by simp)
      · rintro ⟨hplane, -⟩
        exact absurd hdist (not_lt.mpr hplane)
    · have hguard : ¬(0 < normSq3 (cross3 (v1 - v0) (v2 - v0))
          ∧ (r < 0 ∨ r ^ 2 * normSq3 (cross3 (v1 - v0) (v2 - v0))
              < dot3 (c - v0) (cross3 (v1 - v0) (v2 - v0)) ^ 2)) := by
        rintro ⟨-, hro | hd⟩
        · exact absurd hr (not_le.mpr hro)
        · exact absurd hd hdist
      rw [if_neg hguard, if_neg (not_lt.mpr hng), decide_eq_true_eq]
      push_neg at hdist
      constructor
      · intro hconds
        exact ⟨hdist, hng, hconds⟩
      · rintro ⟨-, -, hconds⟩
        exact hconds

/-- Explicit value of `barycentric` when the 1e-6 degeneracy guard does not
fire, with the `u = 1 - v - w` component rewritten over the common
denominator. -/
lemma barycentric_eval (p a b c : V2)
    (h : ¬ |baryDenom a b c| < 1 / 1000000) :
    barycentric p a b c =
      ⟨(baryDenom a b c
          - (dot2 (c - a) (c - a) * dot2 (p - a) (b - a)
              - dot2 (b - a) (c - a) * dot2 (p - a) (c - a))
          - (dot2 (b - a) (b - a) * dot2 (p - a) (c - a)
              - dot2 (b - a) (c - a) * dot2 (p - a) (b - a))) / baryDenom a b c,
        (dot2 (c - a) (c - a) * dot2 (p - a) (b - a)
            - dot2 (b - a) (c - a) * dot2 (p - a) (c - a)) / baryDenom a b c,
        (dot2 (b - a) (b - a) * dot2 (p - a) (c - a)
            - dot2 (b - a) (c - a) * dot2 (p - a) (b - a)) / baryDenom a b c⟩ := by
  have hne : baryDenom a b c ≠ 0 := by
    intro h0
    apply h
    rw [h0]
    norm_num
  unfold baryDenom at h hne ⊢
  simp only [barycentric]
  rw [if_neg h]
  simp only [Bary.mk.injEq]
  refine ⟨?_, trivial, trivial⟩
  field_simp

/-- Non-negativity (and sum 1) of the barycentric coordinates with respect
to the first safety-floor triangle, for a rectangle point on the
`maxZ`-side of the diagonal. -/
lemma bary_rect1 (minX maxX minZ maxZ px pz : ℚ)
    (hW : 200 ≤ maxX - minX) (hH : 200 ≤ maxZ - minZ)
    (hx1 : minX ≤ px) (hx2 : px ≤ maxX) (hz1 : minZ ≤ pz) (hz2 : pz ≤ maxZ)
    (hdiag : 0 ≤ (maxZ - minZ) * (px - minX) + (maxX - minX) * (pz - maxZ)) :
    0 ≤ (barycentric ⟨px, pz⟩ ⟨minX, maxZ⟩ ⟨maxX, maxZ⟩ ⟨maxX, minZ⟩).u
    ∧ 0 ≤ (barycentric ⟨px, pz⟩ ⟨minX, maxZ⟩ ⟨maxX, maxZ⟩ ⟨maxX, minZ⟩).v
    ∧ 0 ≤ (barycentric ⟨px, pz⟩ ⟨minX, maxZ⟩ ⟨maxX, maxZ⟩ ⟨maxX, minZ⟩).w
    ∧ (barycentric ⟨px, pz⟩ ⟨minX, maxZ⟩ ⟨maxX, maxZ⟩ ⟨maxX, minZ⟩).u
        + (barycentric ⟨px, pz⟩ ⟨minX, maxZ⟩ ⟨maxX, maxZ⟩ ⟨maxX, minZ⟩).v
        + (barycentric ⟨px, pz⟩ ⟨minX, maxZ⟩ ⟨maxX, maxZ⟩ ⟨maxX, minZ⟩).w = 1 := by
  have hWpos : (0 : ℚ) < maxX - minX := by linarith
  have hHpos : (0 : ℚ) < maxZ - minZ := by linarith
  have hden : baryDenom ⟨minX, maxZ⟩ ⟨maxX, maxZ⟩ ⟨maxX, minZ⟩
      = (maxX - minX) ^ 2 * (maxZ - minZ) ^ 2 := by
    simp only [baryDenom, dot2, V2_sub_x, V2_sub_y]
    ring
  have hdenpos : (0 : ℚ) < baryDenom ⟨minX, maxZ⟩ ⟨maxX, maxZ⟩ ⟨maxX, minZ⟩ := by
    rw [hden]
    positivity
  have hguard : ¬ |baryDenom ⟨minX, maxZ⟩ ⟨maxX, maxZ⟩ ⟨maxX, minZ⟩| < 1 / 1000000 := by
    rw [abs_of_pos hdenpos, hden, not_lt]
    have hq1 : (200 : ℚ) * 200 ≤ (maxX - minX) * (maxX - minX) :=
      mul_le_mul hW hW (by norm_num) (by linarith)
    have hq2 : (200 : ℚ) * 200 ≤ (maxZ - minZ) * (maxZ - minZ) :=
      mul_le_mul hH hH (by norm_num) (by linarith)
    have hq3 : ((200 : ℚ) * 200) * (200 * 200)
        ≤ ((maxX - minX) * (maxX - minX)) * ((maxZ - minZ) * (maxZ - minZ)) :=
      mul_le_mul hq1 hq2 (by positivity) (by positivity)
    nlinarith [hq3]
  rw [barycentric_eval ⟨px, pz⟩ ⟨minX, maxZ⟩ ⟨maxX, maxZ⟩ ⟨maxX, minZ⟩ hguard]
  dsimp only
  refine ⟨?_, ?_, ?_, ?_⟩
  · apply div_nonneg _ hdenpos.le
    simp only [baryDenom, dot2, V2_sub_x, V2_sub_y]
    nlinarith [mul_nonneg (mul_nonneg hWpos.le (sq_nonneg (maxZ - minZ)))
        (sub_nonneg.mpr hx2)]
  · apply div_nonneg _ hdenpos.le
    simp only [dot2, V2_sub_x, V2_sub_y]
    nlinarith [mul_nonneg (mul_pos hWpos hHpos).le hdiag]
  · apply div_nonneg _ hdenpos.le
    simp only [dot2, V2_sub_x, V2_sub_y]
    nlinarith [mul_nonneg (mul_nonneg (sq_nonneg (maxX - minX)) hHpos.le)
        (sub_nonneg.mpr hz2)]
  · rw [div_add_div_same, div_add_div_same, div_eq_one_iff_eq (ne_of_gt hdenpos)]
    ring

/-- Non-negativity (and sum 1) of the barycentric coordinates with respect
to the second safety-floor triangle, for a rectangle point on the
`minZ`-side of the diagonal. -/
lemma bary_rect2 (minX maxX minZ maxZ px pz : ℚ)
    (hW : 200 ≤ maxX - minX) (hH : 200 ≤ maxZ - minZ)
    (hx1 : minX ≤ px) (hx2 : px ≤ maxX) (hz1 : minZ ≤ pz) (hz2 : pz ≤ maxZ)
    (hdiag : (maxZ - minZ) * (px - minX) + (maxX - minX) * (pz - maxZ) ≤ 0) :
    0 ≤ (barycentric ⟨px, pz⟩ ⟨minX, maxZ⟩ ⟨maxX, minZ⟩ ⟨minX, minZ⟩).u
    ∧ 0 ≤ (barycentric ⟨px, pz⟩ ⟨minX, maxZ⟩ ⟨maxX, minZ⟩ ⟨minX, minZ⟩).v
    ∧ 0 ≤ (barycentric ⟨px, pz⟩ ⟨minX, maxZ⟩ ⟨maxX, minZ⟩ ⟨minX, minZ⟩).w
    ∧ (barycentric ⟨px, pz⟩ ⟨minX, maxZ⟩ ⟨maxX, minZ⟩ ⟨minX, minZ⟩).u
        + (barycentric ⟨px, pz⟩ ⟨minX, maxZ⟩ ⟨maxX, minZ⟩ ⟨minX, minZ⟩).v
        + (barycentric ⟨px, pz⟩ ⟨minX, maxZ⟩ ⟨maxX, minZ⟩ ⟨minX, minZ⟩).w = 1 := by
  have hWpos : (0 : ℚ) < maxX - minX := by linarith
  have hHpos : (0 : ℚ) < maxZ - minZ := by linarith
  have hden : baryDenom ⟨minX, maxZ⟩ ⟨maxX, minZ⟩ ⟨minX, minZ⟩
      = (maxX - minX) ^ 2 * (maxZ - minZ) ^ 2 := by
    simp only [baryDenom, dot2, V2_sub_x, V2_sub_y]
    ring
  have hdenpos : (0 : ℚ) < baryDenom ⟨minX, maxZ⟩ ⟨maxX, minZ⟩ ⟨minX, minZ⟩ := by
    rw [hden]
    positivity
  have hguard : ¬ |baryDenom ⟨minX, maxZ⟩ ⟨maxX, minZ⟩ ⟨minX, minZ⟩| < 1 / 1000000 := by
    rw [abs_of_pos hdenpos, hden, not_lt]
    have hq1 : (200 : ℚ) * 200 ≤ (maxX - minX) * (maxX - minX) :=
      mul_le_mul hW hW (by norm_num) (by linarith)
    have hq2 : (200 : ℚ) * 200 ≤ (maxZ - minZ) * (maxZ - minZ) :=
      mul_le_mul hH hH (by norm_num) (by linarith)
    have hq3 : ((200 : ℚ) * 200) * (200 * 200)
        ≤ ((maxX - minX) * (maxX - minX)) * ((maxZ - minZ) * (maxZ - minZ)) :=
      mul_le_mul hq1 hq2 (by positivity) (by positivity)
    nlinarith [hq3]
  rw [barycentric_eval ⟨px, pz⟩ ⟨minX, maxZ⟩ ⟨maxX, minZ⟩ ⟨minX, minZ⟩ hguard]
  dsimp only
  refine ⟨?_, ?_, ?_, ?_⟩
  · apply div_nonneg _ hdenpos.le
    simp only [baryDenom, dot2, V2_sub_x, V2_sub_y]
    nlinarith [mul_nonneg (mul_nonneg (sq_nonneg (maxX - minX)) hHpos.le)
        (sub_nonneg.mpr hz1)]
  · apply div_nonneg _ hdenpos.le
    simp only [dot2, V2_sub_x, V2_sub_y]
    nlinarith [mul_nonneg (mul_nonneg (sq_nonneg (maxZ - minZ)) hWpos.le)
        (sub_nonneg.mpr hx1)]
  · apply div_nonneg _ hdenpos.le
    simp only [dot2, V2_sub_x, V2_sub_y]
    nlinarith [mul_nonneg (mul_pos hWpos hHpos).le (neg_nonneg.mpr hdiag)]
  · rw [div_add_div_same, div_add_div_same, div_eq_one_iff_eq (ne_of_gt hdenpos)]
    ring

lemma safetyTri_slope_ok (mn mx : V3) :
    slopeTooSteep (safetyTri1 mn mx).normal (1 / 2) = false
    ∧ slopeTooSteep (safetyTri2 mn mx).normal (1 / 2) = false := by
  constructor <;> · norm_num [safetyTri1, safetyTri2, slopeTooSteep, normSq3, dot3]

/-- Inside the expanded rectangle, on the `maxZ` side of its diagonal, the
first safety-floor triangle is a height candidate with interpolated height
exactly `minBounds.y`. -/
lemma safetyTri1_hit (mn mx pos : V3) (hx : mn.x ≤ mx.x) (hz : mn.z ≤ mx.z)
    (hpx1 : mn.x - 100 ≤ pos.x) (hpx2 : pos.x ≤ mx.x + 100)
    (hpz1 : mn.z - 100 ≤ pos.z) (hpz2 : pos.z ≤ mx.z + 100)
    (hdiag : 0 ≤ (mx.z + 100 - (mn.z - 100)) * (pos.x - (mn.x - 100))
        + (mx.x + 100 - (mn.x - 100)) * (pos.z - (mx.z + 100))) :
    isCandidate pos true (safetyTri1 mn mx) = true
    ∧ interpHeight pos (safetyTri1 mn mx) = mn.y := by
  have hb : baryAt pos (safetyTri1 mn mx)
      = barycentric ⟨pos.x, pos.z⟩ ⟨mn.x - 100, mx.z + 100⟩ ⟨mx.x + 100, mx.z + 100⟩
          ⟨mx.x + 100, mn.z - 100⟩ := rfl
  obtain ⟨hu, hv, hw, hsum⟩ :=
    bary_rect1 (mn.x - 100) (mx.x + 100) (mn.z - 100) (mx.z + 100) pos.x pos.z
      (by linarith) (by linarith) hpx1 hpx2 hpz1 hpz2 hdiag
  have hinside : baryInside pos (safetyTri1 mn mx) = true := by
    simp only [baryInside, hb, decide_eq_true_eq]
    exact ⟨hu, hv, hw⟩
  refine ⟨?_, ?_⟩
  · unfold isCandidate
    rw [hinside, (safetyTri_slope_ok mn mx).1]
    rfl
  · have hy0 : (safetyTri1 mn mx).v0.y = mn.y := rfl
    have hy1 : (safetyTri1 mn mx).v1.y = mn.y := rfl
    have hy2 : (safetyTri1 mn mx).v2.y = mn.y := rfl
    simp only [interpHeight, hb, hy0, hy1, hy2]
    linear_combination mn.y * hsum

/-- Inside the expanded rectangle, on the `minZ` side of its diagonal, the
second safety-floor triangle is a height candidate with interpolated height
exactly `minBounds.y`. -/
lemma safetyTri2_hit (mn mx pos : V3) (hx : mn.x ≤ mx.x) (hz : mn.z ≤ mx.z)
    (hpx1 : mn.x - 100 ≤ pos.x) (hpx2 : pos.x ≤ mx.x + 100)
    (hpz1 : mn.z - 100 ≤ pos.z) (hpz2 : pos.z ≤ mx.z + 100)
    (hdiag : (mx.z + 100 - (mn.z - 100)) * (pos.x - (mn.x - 100))
        + (mx.x + 100 - (mn.x - 100)) * (pos.z - (mx.z + 100)) ≤ 0) :
    isCandidate pos true (safetyTri2 mn mx) = true
    ∧ interpHeight pos (safetyTri2 mn mx) = mn.y := by
  have hb : baryAt pos (safetyTri2 mn mx)
      = barycentric ⟨pos.x, pos.z⟩ ⟨mn.x - 100, mx.z + 100⟩ ⟨mx.x + 100, mn.z - 100⟩
          ⟨mn.x - 100, mn.z - 100⟩ := rfl
  obtain ⟨hu, hv, hw, hsum⟩ :=
    bary_rect2 (mn.x - 100) (mx.x + 100) (mn.z - 100) (mx.z + 100) pos.x pos.z
      (by linarith) (by linarith) hpx1 hpx2 hpz1 hpz2 hdiag
  have hinside : baryInside pos (safetyTri2 mn mx) = true := by
    simp only [baryInside, hb, decide_eq_true_eq]
    exact ⟨hu, hv, hw⟩
  refine ⟨?_, ?_⟩
  · unfold isCandidate
    rw [hinside, (safetyTri_slope_ok mn mx).2]
    rfl
  · have hy0 : (safetyTri2 mn mx).v0.y = mn.y := rfl
    have hy1 : (safetyTri2 mn mx).v1.y = mn.y := rfl
    have hy2 : (safetyTri2 mn mx).v2.y = mn.y := rfl
    simp only [interpHeight, hb, hy0, hy1, hy2]
    linear_combination mn.y * hsum

/-! ### Claim theorems -/

/-- C1: with `checkSlope = true`, `Maze::getFloorHeight` considers exactly
the floor triangles that pass the walkable-slope test (unit normal y at
least 0.5, i.e. not `slopeTooSteep` at threshold 1/2 — a constant
independent of the 0.7 classification threshold) and whose 2D barycentric
coordinates at (pos.x, pos.z) are all non-negative; whenever some such
candidate has interpolated height above the `-FLT_MAX` initial best, the
returned value equals some candidate's interpolated height
`u*v0.y + v*v1.y + w*v2.y` and is at least every candidate's. -/
theorem getFloorHeight_is_max_of_candidates (tris : List Triangle) (pos : V3)
    (h : ∃ t ∈ tris, isCandidate pos true t = true ∧ -fltMax < interpHeight pos t) :
    (∀ t : Triangle,
        isCandidate pos true t = (!slopeTooSteep t.normal (1 / 2) && baryInside pos t))
    ∧ (∃ t ∈ tris, isCandidate pos true t = true
        ∧ getFloorHeight tris pos true = interpHeight pos t)
    ∧ (∀ t ∈ tris, isCandidate pos true t = true →
        interpHeight pos t ≤ getFloorHeight tris pos true) := by
  have hfound : (floorHeightRun tris pos true).1 = true := floorHeightRun_found tris pos true h
  have hval : getFloorHeight tris pos true = (floorHeightRun tris pos true).2 := by
    simp [getFloorHeight, hfound]
  refine ⟨fun t => by simp [isCandidate], ?_, ?_⟩
  · rcases floorHeightRun_mem tris pos true with hbot | ⟨t, ht, hcand, hv⟩
    · obtain ⟨t0, ht0, hc0, hlt0⟩ := h
      have := floorHeightRun_ge tris pos true t0 ht0 hc0
      rw [hbot] at this
      exact absurd (lt_of_lt_of_le hlt0 this) (lt_irrefl _)
    · exact ⟨t, ht, hcand, hval.trans hv⟩
  · intro t ht hcand
    rw [hval]
    exact floorHeightRun_ge tris pos true t ht hcand

theorem getFloorHeight_is_max_of_candidates_witness :
    (∃ t ∈ [mkTriangle ⟨0, 0, 0⟩ ⟨0, 0, 4⟩ ⟨4, 0, 0⟩],
        isCandidate ⟨1, 7, 1⟩ true t = true ∧ -fltMax < interpHeight ⟨1, 7, 1⟩ t)
    ∧ (∃ t ∈ [mkTriangle ⟨0, 0, 0⟩ ⟨0, 0, 4⟩ ⟨4, 0, 0⟩],
        isCandidate ⟨1, 7, 1⟩ true t = true
        ∧ getFloorHeight [mkTriangle ⟨0, 0, 0⟩ ⟨0, 0, 4⟩ ⟨4, 0, 0⟩] ⟨1, 7, 1⟩ true
            = interpHeight ⟨1, 7, 1⟩ t) := by
  have hyp : ∃ t ∈ [mkTriangle ⟨0, 0, 0⟩ ⟨0, 0, 4⟩ ⟨4, 0, 0⟩],
      isCandidate ⟨1, 7, 1⟩ true t = true ∧ -fltMax < interpHeight ⟨1, 7, 1⟩ t := by
    refine ⟨mkTriangle ⟨0, 0, 0⟩ ⟨0, 0, 4⟩ ⟨4, 0, 0⟩, by simp, ?_, ?_⟩
    · norm_num [isCandidate, slopeTooSteep, baryInside, baryAt, barycentric,
        mkTriangle, cross3, dot2, dot3, normSq3]
    · norm_num [interpHeight, baryAt, barycentric, mkTriangle, cross3, dot2, fltMax]
  exact ⟨hyp, (getFloorHeight_is_max_of_candidates _ _ hyp).2.1⟩

/-- C10: the two `getFloorHeight` variants (Maze.h lines 334-360 and
part_008 lines 322-357) agree whenever some candidate triangle yields an
interior hit passing the slope test (above the `-FLT_MAX` initial best);
when no triangle is a candidate, the Maze.h variant returns the sentinel
-99999 and the part_008 variant returns `minBounds.y`. -/
theorem getFloorHeight_variants_agree (tris : List Triangle) (mnY : ℚ) (pos : V3) (cs : Bool) :
    ((∃ t ∈ tris, isCandidate pos cs t = true ∧ -fltMax < interpHeight pos t) →
        getFloorHeight tris pos cs = getFloorHeight008 tris mnY pos cs)
    ∧ ((∀ t ∈ tris, isCandidate pos cs t = false) →
        getFloorHeight tris pos cs = -99999 ∧ getFloorHeight008 tris mnY pos cs = mnY) := by
  constructor
  · intro h
    have hfound := floorHeightRun_found tris pos cs h
    simp [getFloorHeight, getFloorHeight008, hfound]
  · intro h
    have hnf := floorHeightRun_not_found tris pos cs h
    constructor
    · simp [getFloorHeight, hnf]
    · simp [getFloorHeight008, hnf]

theorem getFloorHeight_variants_agree_witness :
    ((∃ t ∈ [mkTriangle ⟨0, 0, 0⟩ ⟨0, 0, 4⟩ ⟨4, 0, 0⟩],
        isCandidate ⟨1, 5, 1⟩ true t = true ∧ -fltMax < interpHeight ⟨1, 5, 1⟩ t)
      ∧ getFloorHeight [mkTriangle ⟨0, 0, 0⟩ ⟨0, 0, 4⟩ ⟨4, 0, 0⟩] ⟨1, 5, 1⟩ true
          = getFloorHeight008 [mkTriangle ⟨0, 0, 0⟩ ⟨0, 0, 4⟩ ⟨4, 0, 0⟩] 123 ⟨1, 5, 1⟩ true)
    ∧ ((∀ t ∈ ([] : List Triangle), isCandidate ⟨1, 5, 1⟩ true t = false)
      ∧ getFloorHeight [] ⟨1, 5, 1⟩ true = -99999
      ∧ getFloorHeight008 [] 123 ⟨1, 5, 1⟩ true = 123) := by
  have hyp : ∃ t ∈ [mkTriangle ⟨0, 0, 0⟩ ⟨0, 0, 4⟩ ⟨4, 0, 0⟩],
      isCandidate ⟨1, 5, 1⟩ true t = true ∧ -fltMax < interpHeight ⟨1, 5, 1⟩ t := by
    refine ⟨mkTriangle ⟨0, 0, 0⟩ ⟨0, 0, 4⟩ ⟨4, 0, 0⟩, by simp, ?_, ?_⟩
    · norm_num [isCandidate, slopeTooSteep, baryInside, baryAt, barycentric,
        mkTriangle, cross3, dot2, dot3, normSq3]
    · norm_num [interpHeight, baryAt, barycentric, mkTriangle, cross3, dot2, fltMax]
  have hempty : ∀ t ∈ ([] : List Triangle), isCandidate ⟨1, 5, 1⟩ true t = false := by
    simp
  refine ⟨⟨hyp, ?_⟩, hempty, ?_⟩
  · exact (getFloorHeight_variants_agree [mkTriangle ⟨0, 0, 0⟩ ⟨0, 0, 4⟩ ⟨4, 0, 0⟩]
      123 ⟨1, 5, 1⟩ true).1 hyp
  · exact (getFloorHeight_variants_agree [] 123 ⟨1, 5, 1⟩ true).2 hempty

/-- C3: every triangle ingested by `Maze::loadModel` lands in exactly one of
the two sets: `floorTriangles` holds exactly the triangles whose computed
face normal satisfies `normal.y > 0.7` (in the squared form of
`isFloorNormal`, equivalent to the source's test on the normalized normal),
`wallTriangles` exactly the rest; none is lost and none is duplicated
across the two sets. -/
theorem loadModel_partition (raw : List (V3 × V3 × V3)) :
    (loadModel raw).1
        = (raw.map (fun r => mkTriangle r.1 r.2.1 r.2.2)).filter
            (fun t => isFloorNormal t.normal (7 / 10))
    ∧ (loadModel raw).2
        = (raw.map (fun r => mkTriangle r.1 r.2.1 r.2.2)).filter
            (fun t => !isFloorNormal t.normal (7 / 10))
    ∧ (loadModel raw).1.length + (loadModel raw).2.length = raw.length
    ∧ ∀ t : Triangle, ¬(t ∈ (loadModel raw).1 ∧ t ∈ (loadModel raw).2) := by
  have hmain : (loadModel raw).1
        = (raw.map (fun r => mkTriangle r.1 r.2.1 r.2.2)).filter
            (fun t => isFloorNormal t.normal (7 / 10))
      ∧ (loadModel raw).2
        = (raw.map (fun r => mkTriangle r.1 r.2.1 r.2.2)).filter
            (fun t => !isFloorNormal t.normal (7 / 10))
      ∧ (loadModel raw).1.length + (loadModel raw).2.length = raw.length := by
    induction raw with
    | nil => exact ⟨rfl, rfl, rfl⟩
    | cons r rest ih =>
        obtain ⟨ih1, ih2, ih3⟩ := ih
        by_cases hf : isFloorNormal (mkTriangle r.1 r.2.1 r.2.2).normal (7 / 10) = true
        · refine ⟨?_, ?_, ?_⟩
          · simp [loadModel, hf, List.filter_cons, ih1]
          · simp [loadModel, hf, List.filter_cons, ih2]
          · simp only [loadModel, hf, if_true, List.length_cons]
            omega
        · have hf' : isFloorNormal (mkTriangle r.1 r.2.1 r.2.2).normal (7 / 10) = false := by
            cases hv : isFloorNormal (mkTriangle r.1 r.2.1 r.2.2).normal (7 / 10)
            · rfl
            · exact absurd hv hf
          refine ⟨?_, ?_, ?_⟩
          · simp [loadModel, hf', List.filter_cons, ih1]
          · simp [loadModel, hf', List.filter_cons, ih2]
          · simp only [loadModel, hf', Bool.false_eq_true, if_false, List.length_cons]
            omega
  refine ⟨hmain.1, hmain.2.1, hmain.2.2, ?_⟩
  rintro t ⟨hfl, hwl⟩
  rw [hmain.1] at hfl
  rw [hmain.2.1] at hwl
  have h1 := (List.mem_filter.mp hfl).2
  have h2 := (List.mem_filter.mp hwl).2
  rw [h1] at h2
  exact absurd h2 (by simp)

/-- C4: `Maze::addFloor` appends exactly two triangles to the floor set,
unconditionally (no slope classification is involved), forming the
rectangle [minBounds.x-100, maxBounds.x+100] x [minBounds.z-100,
maxBounds.z+100] at height y = minBounds.y; both carry the exact normal
(0,1,0) and centroid Y exactly minBounds.y. -/
theorem addFloor_safety (fl : List Triangle) (mn mx : V3) :
    addFloor fl mn mx = fl ++ [safetyTri1 mn mx, safetyTri2 mn mx]
    ∧ (addFloor fl mn mx).length = fl.length + 2
    ∧ (safetyTri1 mn mx).normal = ⟨0, 1, 0⟩
    ∧ (safetyTri2 mn mx).normal = ⟨0, 1, 0⟩
    ∧ (safetyTri1 mn mx).centroid.y = mn.y
    ∧ (safetyTri2 mn mx).centroid.y = mn.y
    ∧ (safetyTri1 mn mx).v0 = ⟨mn.x - 100, mn.y, mx.z + 100⟩
    ∧ (safetyTri1 mn mx).v1 = ⟨mx.x + 100, mn.y, mx.z + 100⟩
    ∧ (safetyTri1 mn mx).v2 = ⟨mx.x + 100, mn.y, mn.z - 100⟩
    ∧ (safetyTri2 mn mx).v0 = ⟨mn.x - 100, mn.y, mx.z + 100⟩
    ∧ (safetyTri2 mn mx).v1 = ⟨mx.x + 100, mn.y, mn.z - 100⟩
    ∧ (safetyTri2 mn mx).v2 = ⟨mn.x - 100, mn.y, mn.z - 100⟩ := by
  refine ⟨rfl, ?_, rfl, rfl, ?_, ?_, rfl, rfl, rfl, rfl, rfl, rfl⟩
  · simp [addFloor]
  · show (1 / 3 : ℚ) * (mn.y + mn.y + mn.y) = mn.y
    ring
  · show (1 / 3 : ℚ) * (mn.y + mn.y + mn.y) = mn.y
    ring

/-- C5: after `addFloor` has run, any query point whose (x,z) lies within
the expanded bounds [minBounds.x-100, maxBounds.x+100] x [minBounds.z-100,
maxBounds.z+100] obtains an interior barycentric hit on at least one of the
two safety-floor triangles (whose vertical normal passes the slope test),
so `getFloorHeight(pos, true)` takes the found branch (the not-found branch
is unreachable) and returns at least `minBounds.y`. -/
theorem safety_floor_covers (floors : List Triangle) (mn mx pos : V3)
    (hx : mn.x ≤ mx.x) (hz : mn.z ≤ mx.z) (hy : -fltMax < mn.y)
    (hpx1 : mn.x - 100 ≤ pos.x) (hpx2 : pos.x ≤ mx.x + 100)
    (hpz1 : mn.z - 100 ≤ pos.z) (hpz2 : pos.z ≤ mx.z + 100) :
    (∃ t ∈ [safetyTri1 mn mx, safetyTri2 mn mx],
        isCandidate pos true t = true ∧ interpHeight pos t = mn.y)
    ∧ (floorHeightRun (addFloor floors mn mx) pos true).1 = true
    ∧ mn.y ≤ getFloorHeight (addFloor floors mn mx) pos true := by
  have hexists : ∃ t ∈ [safetyTri1 mn mx, safetyTri2 mn mx],
      isCandidate pos true t = true ∧ interpHeight pos t = mn.y := by
    by_cases hdiag : 0 ≤ (mx.z + 100 - (mn.z - 100)) * (pos.x - (mn.x - 100))
        + (mx.x + 100 - (mn.x - 100)) * (pos.z - (mx.z + 100))
    · obtain ⟨hc, hi⟩ := safetyTri1_hit mn mx pos hx hz hpx1 hpx2 hpz1 hpz2 hdiag
      exact ⟨safetyTri1 mn mx, by simp, hc, hi⟩
    · push_neg at hdiag
      obtain ⟨hc, hi⟩ := safetyTri2_hit mn mx pos hx hz hpx1 hpx2 hpz1 hpz2 hdiag.le
      exact ⟨safetyTri2 mn mx, by simp, hc, hi⟩
  obtain ⟨t, htmem, hc, hi⟩ := hexists
  have htall : t ∈ addFloor floors mn mx := by
    unfold addFloor
    exact List.mem_append_right floors htmem
  have hfound : (floorHeightRun (addFloor floors mn mx) pos true).1 = true :=
    floorHeightRun_found _ _ _ ⟨t, htall, hc, by rw [hi]; exact hy⟩
  refine ⟨⟨t, htmem, hc, hi⟩, hfound, ?_⟩
  have hval : getFloorHeight (addFloor floors mn mx) pos true
      = (floorHeightRun (addFloor floors mn mx) pos true).2 := by
    simp [getFloorHeight, hfound]
  rw [hval, ← hi]
  exact floorHeightRun_ge _ _ _ t htall hc

theorem safety_floor_covers_witness :
    ((0 : ℚ) ≤ 10 ∧ -fltMax < (0 : ℚ))
    ∧ (∃ t ∈ [safetyTri1 ⟨0, 0, 0⟩ ⟨10, 5, 10⟩, safetyTri2 ⟨0, 0, 0⟩ ⟨10, 5, 10⟩],
        isCandidate ⟨3, 99, 4⟩ true t = true ∧ interpHeight ⟨3, 99, 4⟩ t = 0)
    ∧ (floorHeightRun (addFloor [] ⟨0, 0, 0⟩ ⟨10, 5, 10⟩) ⟨3, 99, 4⟩ true).1 = true
    ∧ (0 : ℚ) ≤ getFloorHeight (addFloor [] ⟨0, 0, 0⟩ ⟨10, 5, 10⟩) ⟨3, 99, 4⟩ true := by
  have hy : -fltMax < (0 : ℚ) := by norm_num [fltMax]
  have hmain := safety_floor_covers [] ⟨0, 0, 0⟩ ⟨10, 5, 10⟩ ⟨3, 99, 4⟩
    (by norm_num) (by norm_num) hy (by norm_num) (by norm_num) (by norm_num) (by norm_num)
  exact ⟨⟨by norm_num, hy⟩, hmain.1, hmain.2.1, hmain.2.2⟩

/-- C6: in every physics substep with noclip off, when the candidate
position produced by the substep's directional movement collides with a
wall at probe radius 5.0, the position (all three coordinates) and the
cached floor height are reverted to their values at the start of the
substep; consequently, over the 4 substeps of a frame, a constant input
displacement whose first candidate collides leaves the final state exactly
equal to the pre-collision substep state. -/
theorem substep_full_revert_on_wall (walls floors : List Triangle) (pos : V3) (fh : ℚ)
    (delta : V3) (h : checkWallCollision walls (pos + delta) 5 = true) :
    substep walls floors pos fh delta = (pos, fh)
    ∧ runSubsteps walls floors delta 4 (pos, fh) = (pos, fh) := by
  have h1 : substep walls floors pos fh delta = (pos, fh) := by
    unfold substep
    rw [if_pos h]
  refine ⟨h1, ?_⟩
  show runSubsteps walls floors delta 4 (pos, fh) = (pos, fh)
  simp [runSubsteps, h1]

theorem substep_full_revert_on_wall_witness :
    checkWallCollision [mkTriangle ⟨1, -10, -10⟩ ⟨1, 0, 10⟩ ⟨1, 10, -10⟩]
        ((⟨0, 0, 0⟩ : V3) + ⟨1, 0, 0⟩) 5 = true
    ∧ substep [mkTriangle ⟨1, -10, -10⟩ ⟨1, 0, 10⟩ ⟨1, 10, -10⟩] [] ⟨0, 0, 0⟩ 7 ⟨1, 0, 0⟩
        = (⟨0, 0, 0⟩, 7)
    ∧ runSubsteps [mkTriangle ⟨1, -10, -10⟩ ⟨1, 0, 10⟩ ⟨1, 10, -10⟩] [] ⟨1, 0, 0⟩ 4
        (⟨0, 0, 0⟩, 7) = (⟨0, 0, 0⟩, 7) := by
  have h : checkWallCollision [mkTriangle ⟨1, -10, -10⟩ ⟨1, 0, 10⟩ ⟨1, 10, -10⟩]
      ((⟨0, 0, 0⟩ : V3) + ⟨1, 0, 0⟩) 5 = true := by
    norm_num [checkWallCollision, checkTriangleCollision, mkTriangle, cross3, dot3,
      normSq3, scale]
  have hmain := substep_full_revert_on_wall
    [mkTriangle ⟨1, -10, -10⟩ ⟨1, 0, 10⟩ ⟨1, 10, -10⟩] [] ⟨0, 0, 0⟩ 7 ⟨1, 0, 0⟩ h
  exact ⟨h, hmain.1, hmain.2⟩

/-- C7: the failsafe after the substep loop: when the Y position is below
-300 the position becomes exactly the spawn position with the 50-unit
eye-height offset added to Y (so one tick suffices for an actor at
y = -1000); when Y is at or above -300 the position is left unchanged. -/
theorem failsafe_teleports_to_spawn :
    (∀ pos start : V3, pos.y < -300 →
        failsafeCheck pos start = ⟨start.x, start.y + 50, start.z⟩)
    ∧ (∀ pos start : V3, -300 ≤ pos.y → failsafeCheck pos start = pos) := by
  constructor
  · intro pos start h
    unfold failsafeCheck
    rw [if_pos h]
  · intro pos start h
    unfold failsafeCheck
    rw [if_neg (not_lt.mpr h)]

theorem failsafe_teleports_to_spawn_witness :
    ((-1000 : ℚ) < -300
      ∧ failsafeCheck ⟨7, -1000, 3⟩ ⟨1, 2, 3⟩ = ⟨(1 : ℚ), (2 : ℚ) + 50, (3 : ℚ)⟩)
    ∧ ((-300 : ℚ) ≤ 4 ∧ failsafeCheck ⟨7, 4, 3⟩ ⟨1, 2, 3⟩ = ⟨7, 4, 3⟩) :=
  ⟨⟨by norm_num,
    failsafe_teleports_to_spawn.1 ⟨7, -1000, 3⟩ ⟨1, 2, 3⟩ (by norm_num)⟩,
   ⟨by norm_num,
    failsafe_teleports_to_spawn.2 ⟨7, 4, 3⟩ ⟨1, 2, 3⟩ (by norm_num)⟩⟩

/-- C9: victory detection depends only on the horizontal (x,z) components
of the actor position (never Y), and the flag is one-way: an update from a
set flag returns a set flag, and any sequence of per-frame updates starting
from a set flag leaves it set. -/
theorem victory_horizontal_and_oneway :
    (∀ (flag : Bool) (p q e : V3) (r : ℚ), p.x = q.x → p.z = q.z →
        victoryUpdate flag p e r = victoryUpdate flag q e r)
    ∧ (∀ (p e : V3) (r : ℚ), victoryUpdate true p e r = true)
    ∧ (∀ (l : List V3) (e : V3) (r : ℚ),
        l.foldl (fun fl p => victoryUpdate fl p e r) true = true) := by
  have honce : ∀ (p e : V3) (r : ℚ), victoryUpdate true p e r = true := by
    intro p e r
    unfold victoryUpdate
    simp
  refine ⟨?_, honce, ?_⟩
  · intro flag p q e r hx hz
    unfold victoryUpdate distSq2
    rw [hx, hz]
  · intro l e r
    induction l with
    | nil => rfl
    | cons p rest ih =>
        rw [List.foldl_cons, honce p e r]
        exact ih

theorem victory_horizontal_and_oneway_witness :
    ((⟨3, 50, 4⟩ : V3).x = (⟨3, -17, 4⟩ : V3).x
      ∧ (⟨3, 50, 4⟩ : V3).z = (⟨3, -17, 4⟩ : V3).z
      ∧ victoryUpdate false ⟨3, 50, 4⟩ ⟨0, 0, 0⟩ 50
          = victoryUpdate false ⟨3, -17, 4⟩ ⟨0, 0, 0⟩ 50)
    ∧ victoryUpdate true ⟨900, 0, 900⟩ ⟨0, 0, 0⟩ 50 = true
    ∧ [(⟨900, 0, 900⟩ : V3), ⟨0, 0, 0⟩].foldl
        (fun fl p => victoryUpdate fl p ⟨0, 0, 0⟩ 50) true = true :=
  ⟨⟨rfl, rfl,
    victory_horizontal_and_oneway.1 false ⟨3, 50, 4⟩ ⟨3, -17, 4⟩ ⟨0, 0, 0⟩ 50 rfl rfl⟩,
   victory_horizontal_and_oneway.2.1 ⟨900, 0, 900⟩ ⟨0, 0, 0⟩ 50,
   victory_horizontal_and_oneway.2.2 [⟨900, 0, 900⟩, ⟨0, 0, 0⟩] ⟨0, 0, 0⟩ 50⟩

/-- C8: a barycentric denominator of magnitude below 1e-6 makes the height
query's `barycentric` helper return the invalid coordinates (-1,-1,-1)
without performing the division, so such a triangle is never a height
candidate; in the wall query, a `D` of magnitude below 1e-6 makes
`checkTriangleCollision` return false (whichever earlier branch is taken),
so a degenerate wall triangle never reports a collision. -/
theorem degenerate_triangles_skipped :
    (∀ p a b c : V2, |baryDenom a b c| < 1 / 1000000 →
        barycentric p a b c = ⟨-1, -1, -1⟩)
    ∧ (∀ (pos : V3) (cs : Bool) (t : Triangle),
        |baryDenom ⟨t.v0.x, t.v0.z⟩ ⟨t.v1.x, t.v1.z⟩ ⟨t.v2.x, t.v2.z⟩| < 1 / 1000000 →
        isCandidate pos cs t = false)
    ∧ (∀ (c : V3) (r : ℚ) (v0 v1 v2 : V3),
        |dot3 (v1 - v0) (v2 - v0) * dot3 (v1 - v0) (v2 - v0)
          - dot3 (v1 - v0) (v1 - v0) * dot3 (v2 - v0) (v2 - v0)| < 1 / 1000000 →
        checkTriangleCollision c r v0 v1 v2 = false) := by
  refine ⟨barycentric_of_denom_small, ?_, ?_⟩
  · intro pos cs t h
    have hb : baryAt pos t = ⟨-1, -1, -1⟩ := by
      unfold baryAt
      exact barycentric_of_denom_small _ _ _ _ h
    simp only [isCandidate, baryInside, hb]
    norm_num
  · intro c r v0 v1 v2 h
    simp only [checkTriangleCollision]
    split_ifs <;> rfl

theorem degenerate_triangles_skipped_witness :
    (|baryDenom ⟨0, 0⟩ ⟨1, 0⟩ ⟨2, 0⟩| < 1 / 1000000
      ∧ barycentric ⟨5, 5⟩ ⟨0, 0⟩ ⟨1, 0⟩ ⟨2, 0⟩ = ⟨-1, -1, -1⟩)
    ∧ (|baryDenom ⟨(0 : ℚ), 0⟩ ⟨1, 0⟩ ⟨2, 0⟩| < 1 / 1000000
      ∧ isCandidate ⟨5, 9, 5⟩ true (mkTriangle ⟨0, 5, 0⟩ ⟨1, 5, 0⟩ ⟨2, 5, 0⟩) = false)
    ∧ (|dot3 ((⟨1, 5, 0⟩ : V3) - ⟨0, 5, 0⟩) ((⟨2, 5, 0⟩ : V3) - ⟨0, 5, 0⟩)
          * dot3 ((⟨1, 5, 0⟩ : V3) - ⟨0, 5, 0⟩) ((⟨2, 5, 0⟩ : V3) - ⟨0, 5, 0⟩)
        - dot3 ((⟨1, 5, 0⟩ : V3) - ⟨0, 5, 0⟩) ((⟨1, 5, 0⟩ : V3) - ⟨0, 5, 0⟩)
          * dot3 ((⟨2, 5, 0⟩ : V3) - ⟨0, 5, 0⟩) ((⟨2, 5, 0⟩ : V3) - ⟨0, 5, 0⟩)| < 1 / 1000000
      ∧ checkTriangleCollision ⟨5, 9, 5⟩ 3 ⟨0, 5, 0⟩ ⟨1, 5, 0⟩ ⟨2, 5, 0⟩ = false) := by
  have hd : |baryDenom ⟨(0 : ℚ), 0⟩ ⟨1, 0⟩ ⟨2, 0⟩| < 1 / 1000000 := by
    norm_num [baryDenom, dot2]
  have hd2 : |baryDenom ⟨((mkTriangle ⟨0, 5, 0⟩ ⟨1, 5, 0⟩ ⟨2, 5, 0⟩).v0.x : ℚ),
      (mkTriangle ⟨0, 5, 0⟩ ⟨1, 5, 0⟩ ⟨2, 5, 0⟩).v0.z⟩
      ⟨(mkTriangle ⟨0, 5, 0⟩ ⟨1, 5, 0⟩ ⟨2, 5, 0⟩).v1.x, (mkTriangle ⟨0, 5, 0⟩ ⟨1, 5, 0⟩ ⟨2, 5, 0⟩).v1.z⟩
      ⟨(mkTriangle ⟨0, 5, 0⟩ ⟨1, 5, 0⟩ ⟨2, 5, 0⟩).v2.x, (mkTriangle ⟨0, 5, 0⟩ ⟨1, 5, 0⟩ ⟨2, 5, 0⟩).v2.z⟩|
      < 1 / 1000000 := by
    norm_num [baryDenom, dot2, mkTriangle]
  have hd3 : |dot3 ((⟨1, 5, 0⟩ : V3) - ⟨0, 5, 0⟩) ((⟨2, 5, 0⟩ : V3) - ⟨0, 5, 0⟩)
        * dot3 ((⟨1, 5, 0⟩ : V3) - ⟨0, 5, 0⟩) ((⟨2, 5, 0⟩ : V3) - ⟨0, 5, 0⟩)
      - dot3 ((⟨1, 5, 0⟩ : V3) - ⟨0, 5, 0⟩) ((⟨1, 5, 0⟩ : V3) - ⟨0, 5, 0⟩)
        * dot3 ((⟨2, 5, 0⟩ : V3) - ⟨0, 5, 0⟩) ((⟨2, 5, 0⟩ : V3) - ⟨0, 5, 0⟩)| < 1 / 1000000 := by
    norm_num [dot3]
  exact ⟨⟨hd, degenerate_triangles_skipped.1 ⟨5, 5⟩ ⟨0, 0⟩ ⟨1, 0⟩ ⟨2, 0⟩ hd⟩,
    ⟨hd, degenerate_triangles_skipped.2.1 ⟨5, 9, 5⟩ true
        (mkTriangle ⟨0, 5, 0⟩ ⟨1, 5, 0⟩ ⟨2, 5, 0⟩) hd2⟩,
    ⟨hd3, degenerate_triangles_skipped.2.2 ⟨5, 9, 5⟩ 3 ⟨0, 5, 0⟩ ⟨1, 5, 0⟩ ⟨2, 5, 0⟩ hd3⟩⟩

/-- C2: for a non-negative radius, `Maze::checkWallCollision` returns true
iff some wall triangle passes the sphere-vs-triangle test — center within
the radius of the triangle's plane and plane projection inside the
triangle under the code's barycentric containment test; in particular a
center exactly on a non-degenerate wall triangle's plane whose projection
is contained yields true for every radius at least 0, and when every wall
triangle's center-to-plane distance exceeds the radius the query returns
false. -/
theorem checkWallCollision_iff_sphere_test :
    (∀ (walls : List Triangle) (c : V3) (r : ℚ), 0 ≤ r →
        (checkWallCollision walls c r = true ↔
          ∃ t ∈ walls, planeWithinRadius c r t.v0 t.v1 t.v2
            ∧ projWithinTriangle c t.v0 t.v1 t.v2))
    ∧ (∀ (c : V3) (r : ℚ) (v0 v1 v2 : V3), 0 ≤ r →
        dot3 (c - v0) (cross3 (v1 - v0) (v2 - v0)) = 0 →
        projWithinTriangle c v0 v1 v2 →
        checkTriangleCollision c r v0 v1 v2 = true)
    ∧ (∀ (walls : List Triangle) (c : V3) (r : ℚ), 0 ≤ r →
        (∀ t ∈ walls, 0 < normSq3 (cross3 (t.v1 - t.v0) (t.v2 - t.v0))
          ∧ r ^ 2 * normSq3 (cross3 (t.v1 - t.v0) (t.v2 - t.v0))
              < dot3 (c - t.v0) (cross3 (t.v1 - t.v0) (t.v2 - t.v0)) ^ 2) →
        checkWallCollision walls c r = false) := by
  refine ⟨?_, ?_, ?_⟩
  · intro walls c r hr
    rw [checkWallCollision, List.any_eq_true]
    constructor
    · rintro ⟨t, ht, hp⟩
      exact ⟨t, ht, (checkTriangleCollision_iff c r t.v0 t.v1 t.v2 hr).mp hp⟩
    · rintro ⟨t, ht, hp⟩
      exact ⟨t, ht, (checkTriangleCollision_iff c r t.v0 t.v1 t.v2 hr).mpr hp⟩
  · intro c r v0 v1 v2 hr hdot hproj
    apply (checkTriangleCollision_iff c r v0 v1 v2 hr).mpr
    refine ⟨?_, hproj⟩
    unfold planeWithinRadius
    rw [hdot]
    simpa using mul_nonneg (sq_nonneg r) (normSq3_nonneg _)
  · intro walls c r hr hall
    rw [checkWallCollision, List.any_eq_false]
    intro t ht
    obtain ⟨h1, h2⟩ := hall t ht
    simp only [checkTriangleCollision]
    rw [if_pos ⟨h1, Or.inr h2⟩]
    exact Bool.false_ne_true

theorem checkWallCollision_iff_sphere_test_witness :
    ((0 : ℚ) ≤ 1
      ∧ (checkWallCollision [mkTriangle ⟨0, 0, 0⟩ ⟨0, 10, 0⟩ ⟨0, 10, 10⟩] ⟨1 / 2, 5, 5⟩ 1 = true ↔
          ∃ t ∈ [mkTriangle ⟨0, 0, 0⟩ ⟨0, 10, 0⟩ ⟨0, 10, 10⟩],
            planeWithinRadius ⟨1 / 2, 5, 5⟩ 1 t.v0 t.v1 t.v2
              ∧ projWithinTriangle ⟨1 / 2, 5, 5⟩ t.v0 t.v1 t.v2))
    ∧ ((0 : ℚ) ≤ 0
      ∧ dot3 ((⟨0, 5, 5⟩ : V3) - ⟨0, 0, 0⟩)
          (cross3 ((⟨0, 10, 0⟩ : V3) - ⟨0, 0, 0⟩) ((⟨0, 10, 10⟩ : V3) - ⟨0, 0, 0⟩)) = 0
      ∧ projWithinTriangle ⟨0, 5, 5⟩ ⟨0, 0, 0⟩ ⟨0, 10, 0⟩ ⟨0, 10, 10⟩
      ∧ checkTriangleCollision ⟨0, 5, 5⟩ 0 ⟨0, 0, 0⟩ ⟨0, 10, 0⟩ ⟨0, 10, 10⟩ = true)
    ∧ ((0 : ℚ) ≤ 1
      ∧ checkWallCollision [mkTriangle ⟨0, 0, 0⟩ ⟨0, 10, 0⟩ ⟨0, 10, 10⟩] ⟨5, 5, 5⟩ 1 = false) := by
  have hdot : dot3 ((⟨0, 5, 5⟩ : V3) - ⟨0, 0, 0⟩)
      (cross3 ((⟨0, 10, 0⟩ : V3) - ⟨0, 0, 0⟩) ((⟨0, 10, 10⟩ : V3) - ⟨0, 0, 0⟩)) = 0 := by
    norm_num [dot3, cross3]
  have hproj : projWithinTriangle ⟨0, 5, 5⟩ ⟨0, 0, 0⟩ ⟨0, 10, 0⟩ ⟨0, 10, 10⟩ := by
    norm_num [projWithinTriangle, cross3, dot3, normSq3, scale]
  have hall : ∀ t ∈ [mkTriangle ⟨0, 0, 0⟩ ⟨0, 10, 0⟩ ⟨0, 10, 10⟩],
      0 < normSq3 (cross3 (t.v1 - t.v0) (t.v2 - t.v0))
      ∧ (1 : ℚ) ^ 2 * normSq3 (cross3 (t.v1 - t.v0) (t.v2 - t.v0))
          < dot3 ((⟨5, 5, 5⟩ : V3) - t.v0) (cross3 (t.v1 - t.v0) (t.v2 - t.v0)) ^ 2 := by
    intro t ht
    rw [List.mem_singleton] at ht
    subst ht
    constructor
    · norm_num [mkTriangle, normSq3, cross3, dot3]
    · norm_num [mkTriangle, normSq3, cross3, dot3]
  refine ⟨⟨by norm_num, ?_⟩, ⟨by norm_num, hdot, hproj, ?_⟩, ⟨by norm_num, ?_⟩⟩
  · exact checkWallCollision_iff_sphere_test.1
      [mkTriangle ⟨0, 0, 0⟩ ⟨0, 10, 0⟩ ⟨0, 10, 10⟩] ⟨1 / 2, 5, 5⟩ 1 (by norm_num)
  · exact checkWallCollision_iff_sphere_test.2.1 ⟨0, 5, 5⟩ 0 ⟨0, 0, 0⟩ ⟨0, 10, 0⟩ ⟨0, 10, 10⟩
      (by norm_num) hdot hproj
  · exact checkWallCollision_iff_sphere_test.2.2
      [mkTriangle ⟨0, 0, 0⟩ ⟨0, 10, 0⟩ ⟨0, 10, 10⟩] ⟨5, 5, 5⟩ 1 (by norm_num) hall

end MazeSpec
